import Mathlib

/-!
Verification of the plugin-request translation layer (`internal/cmd/shim.go`):
a shallow embedding of the marshaling boundary that converts the compiled
model (catalog + queries) and the merged configuration into the wire-shaped
`CodeGenRequest` consumed by code-generation plugins.
-/

namespace Sqlc

/-- Fully- or partially-qualified name: optional catalog and schema, name.
Shared shape of `ast.TypeName`, `ast.TableName` and `plugin.Identifier`;
the zero value has all three fields empty, as in Go. -/
structure Identifier where
  catalog : String := ""
  schema : String := ""
  name : String := ""
deriving Repr, DecidableEq

/-- Two's-complement wrap of a mathematical integer into the `int32` range,
modelling Go's `int32(x)` conversion from a (64-bit) `int`. -/
def int32ofInt (x : Int) : Int :=
  (x + 2 ^ 31) % 2 ^ 32 - 2 ^ 31

/-! ## Compiled-model input types (packages `catalog`, `compiler`, `config`)

These mirror the fields of the Go structures exactly as `shim.go` reads them;
Go pointer fields whose nilness the shim branches on become `Option`. -/

/-- A column of the compiled catalog (`catalog.Column`): resolved type
identifier held by value, optional declared length (`*int` in Go). -/
structure CatColumn where
  name : String
  type : Identifier
  isNotNull : Bool
  isUnsigned : Bool
  isArray : Bool
  arrayDims : Int
  comment : String
  length : Option Int
deriving Repr, DecidableEq

/-- A table of the compiled catalog (`catalog.Table`). -/
structure CatTable where
  rel : Identifier
  columns : List CatColumn
  comment : String
deriving Repr, DecidableEq

/-- A named type of a compiled schema: `catalog.Enum` or
`catalog.CompositeType` (the two cases the shim's type switch handles). -/
inductive CatType where
  | enum (name : String) (comment : String) (vals : List String)
  | composite (name : String) (comment : String)
deriving Repr, DecidableEq

/-- A schema of the compiled catalog (`catalog.Schema`). -/
structure CatSchema where
  name : String
  comment : String
  tables : List CatTable
  types : List CatType
deriving Repr, DecidableEq

/-- The compiled catalog (`catalog.Catalog`). -/
structure Catalog where
  name : String
  defaultSchema : String
  comment : String
  schemas : List CatSchema
deriving Repr, DecidableEq

/-- A compiled query column (`compiler.Column`): `type` is the optional
resolved type identifier (`*ast.TypeName`), `dataType` the raw textual
datatype used as fallback. -/
structure CompColumn where
  name : String
  originalName : String
  dataType : String
  comment : String
  notNull : Bool
  unsigned : Bool
  isArray : Bool
  arrayDims : Int
  length : Option Int
  isNamedParam : Bool
  isFuncCall : Bool
  isSqlcSlice : Bool
  table : Option Identifier
  type : Option Identifier
  embedTable : Option Identifier
deriving Repr, DecidableEq

/-- A compiled query parameter (`compiler.Parameter`). -/
structure CompParameter where
  number : Int
  column : CompColumn
deriving Repr, DecidableEq

/-- A compiled query (`compiler.Query`, with the `Metadata` fields the shim
reads inlined). -/
structure CompQuery where
  metadataName : String
  metadataCmd : String
  metadataComments : List String
  metadataFilename : String
  sql : String
  columns : List CompColumn
  params : List CompParameter
  insertIntoTable : Option Identifier
deriving Repr, DecidableEq

/-- The compiled result (`compiler.Result`). -/
structure CompilerResult where
  catalog : Catalog
  queries : List CompQuery
deriving Repr, DecidableEq

/-- A user type override from the merged configuration (`config.Override`),
restricted to the fields `shim.go` reads. -/
structure ConfigOverride where
  column : String
  dbType : String
  nullable : Bool
  unsigned : Bool
  goImportPath : String
  goPackage : String
  goTypeName : String
  goBasicType : Bool
  goStructTags : List (String × String)
deriving Repr, DecidableEq

/-- Subprocess execution description of a registry plugin
(`config.Plugin.Process`). -/
structure PluginProcessConf where
  cmd : String
deriving Repr, DecidableEq

/-- Sandboxed-module execution description of a registry plugin
(`config.Plugin.WASM`). -/
structure PluginWASMConf where
  url : String
  sha256 : String
deriving Repr, DecidableEq

/-- An entry of the global plugin registry (`config.Plugin`): the two
execution descriptions are independently optional, exactly as the Go
pointers are. -/
structure ConfigPlugin where
  name : String
  env : List String
  process : Option PluginProcessConf
  wasm : Option PluginWASMConf
deriving Repr, DecidableEq

/-- Per-package codegen stanza (`config.Codegen`): output directory,
requested plugin name and raw (human-authored) options blob. -/
structure ConfigCodegen where
  out : String
  plugin : String
  options : String
deriving Repr, DecidableEq

/-- Global configuration view, restricted to the fields the shim reads
(`cs.Global.Version`, `cs.Global.Plugins`). -/
structure ConfigGlobal where
  version : String
  plugins : List ConfigPlugin
deriving Repr, DecidableEq

/-- Package configuration view, restricted to the fields the shim reads. -/
structure ConfigPackage where
  engine : String
  schema : List String
  queries : List String
deriving Repr, DecidableEq

/-- The merged settings view (`config.CombinedSettings`): the rename map is
carried as an association list. -/
structure CombinedSettings where
  global : ConfigGlobal
  pkg : ConfigPackage
  rename : List (String × String)
  overrides : List ConfigOverride
  codegen : ConfigCodegen
deriving Repr, DecidableEq

/-- The override type-mapping descriptor (`goopts.ParsedGoType`): import
path, package, type name, basic-type flag, field tag annotations. -/
structure ParsedGoType where
  importPath : String
  pkg : String
  typeName : String
  basicType : Bool
  structTags : List (String × String)
deriving Repr, DecidableEq

/-! ## Wire (plugin message) output types -/

/-- A wire column (`plugin.Column`): the type, owning-table and
embedding-table identifiers are message pointers, hence `Option`; fields the
Go struct literals omit take the proto zero value as default. -/
structure PluginColumn where
  name : String := ""
  originalName : String := ""
  comment : String := ""
  notNull : Bool := false
  unsigned : Bool := false
  isArray : Bool := false
  arrayDims : Int := 0
  length : Int := 0
  isNamedParam : Bool := false
  isFuncCall : Bool := false
  isSqlcSlice : Bool := false
  type : Option Identifier := none
  table : Option Identifier := none
  embedTable : Option Identifier := none
deriving Repr, DecidableEq

/-- A wire table (`plugin.Table`). -/
structure PluginTable where
  rel : Option Identifier := none
  columns : List PluginColumn := []
  comment : String := ""
deriving Repr, DecidableEq

/-- A wire enum (`plugin.Enum`). -/
structure PluginEnum where
  name : String := ""
  comment : String := ""
  vals : List String := []
deriving Repr, DecidableEq

/-- A wire composite type (`plugin.CompositeType`). -/
structure PluginCompositeType where
  name : String := ""
  comment : String := ""
deriving Repr, DecidableEq

/-- A wire schema (`plugin.Schema`). -/
structure PluginSchema where
  name : String := ""
  comment : String := ""
  tables : List PluginTable := []
  enums : List PluginEnum := []
  compositeTypes : List PluginCompositeType := []
deriving Repr, DecidableEq

/-- The wire catalog (`plugin.Catalog`). -/
structure PluginCatalog where
  name : String := ""
  defaultSchema : String := ""
  comment : String := ""
  schemas : List PluginSchema := []
deriving Repr, DecidableEq

/-- A wire override (`plugin.Override`): `codeType` carries the serialized
type-mapping descriptor bytes. -/
structure PluginOverride where
  codeType : String := ""
  dbType : String := ""
  nullable : Bool := false
  unsigned : Bool := false
  column : String := ""
  columnName : String := ""
  table : Option Identifier := none
deriving Repr, DecidableEq

/-- Subprocess descriptor of the wire codegen target
(`plugin.Codegen_Process`). -/
structure CodegenProcess where
  cmd : String := ""
deriving Repr, DecidableEq

/-- Sandboxed-module descriptor of the wire codegen target
(`plugin.Codegen_WASM`). -/
structure CodegenWASM where
  url : String := ""
  sha256 : String := ""
deriving Repr, DecidableEq

/-- The wire codegen target (`plugin.Codegen`): the two execution
descriptors are independently-nullable message fields. -/
structure PluginCodegen where
  out : String := ""
  plugin : String := ""
  options : String := ""
  env : List String := []
  process : Option CodegenProcess := none
  wasm : Option CodegenWASM := none
deriving Repr, DecidableEq

/-- The wire settings (`plugin.Settings`). -/
structure PluginSettings where
  version : String := ""
  engine : String := ""
  schema : List String := []
  queries : List String := []
  overrides : List PluginOverride := []
  rename : List (String × String) := []
  codegen : PluginCodegen := {}
deriving Repr, DecidableEq

/-- A wire query parameter (`plugin.Parameter`). -/
structure PluginParameter where
  number : Int := 0
  column : PluginColumn := {}
deriving Repr, DecidableEq

/-- A wire query (`plugin.Query`). -/
structure PluginQuery where
  name : String := ""
  cmd : String := ""
  text : String := ""
  comments : List String := []
  columns : List PluginColumn := []
  params : List PluginParameter := []
  filename : String := ""
  insertIntoTable : Option Identifier := none
deriving Repr, DecidableEq

/-- The assembled top-level request (`plugin.CodeGenRequest`). -/
structure CodeGenRequest where
  settings : PluginSettings
  catalog : PluginCatalog
  queries : List PluginQuery
  sqlcVersion : String
deriving Repr, DecidableEq

/-! ## Modelled library helpers -/

/-- Splitter over a character list used to model Go's `strings.Split` with
the one-character separator that `pluginOverride` uses: every occurrence of
the separator ends a segment, and the empty input yields one empty segment. -/
def splitCharList (sep : Char) : List Char → List (List Char)
  | [] => [[]]
  | c :: rest =>
    let r := splitCharList sep rest
    if c = sep then [] :: r
    else
      match r with
      | [] => [[c]]
      | seg :: segs => (c :: seg) :: segs

/-- Go's `strings.Split(s, ".")`: split `s` on every occurrence of the dot.
Implemented structurally over the character list so it evaluates in the
kernel; `stringsSplitDot "" = [""]`, matching Go. -/
def stringsSplitDot (s : String) : List String :=
  (splitCharList '.' s.toList).map (fun l => ⟨l⟩)

/-- JSON escaping of a single character, as `encoding/json` renders the
characters that can occur in Lean strings. -/
def jsonEscapeChar (c : Char) : String :=
  if c = '"' then "\\\""
  else if c = '\\' then "\\\\"
  else if c = '\n' then "\\n"
  else if c = '\t' then "\\t"
  else if c = '\r' then "\\r"
  else String.singleton c

/-- JSON string literal for `s`. -/
def jsonString (s : String) : String :=
  "\"" ++ String.join (s.toList.map jsonEscapeChar) ++ "\""

/-- JSON object body for the field tag annotations. Go's `encoding/json`
emits map keys in sorted order; no claim inspects the serialized bytes, so
the association list is emitted in carried order. -/
def jsonTagPairs (l : List (String × String)) : String :=
  String.intercalate "," (l.map (fun p => jsonString p.1 ++ ":" ++ jsonString p.2))

/-- Go's `json.Marshal` applied to a `ParsedGoType`. The result pair
`([]byte, error)` is modelled as `Except`; for this shape — five fields that
are strings, a boolean and a string-to-string map — `encoding/json` has no
failing case (no unsupported types, no cycles), so the encoder is total and
always returns `Except.ok`. -/
def jsonMarshalParsedGoType (t : ParsedGoType) : Except String String :=
  Except.ok ("\x7b\"ImportPath\":" ++ jsonString t.importPath ++
    ",\"Package\":" ++ jsonString t.pkg ++
    ",\"TypeName\":" ++ jsonString t.typeName ++
    ",\"BasicType\":" ++ (if t.basicType then "true" else "false") ++
    ",\"StructTags\":\x7b" ++ jsonTagPairs t.structTags ++ "\x7d\x7d")

/-- Modelled from the spec: `convert.YAMLtoJSON` lives in
`internal/config/convert`, outside the translated source; the spec says the
option blob "is converted from its human-authored form into a canonical
structured encoding before transport". It is modelled as a total conversion
wrapping the raw blob as a canonical JSON string; no claim inspects the
encoded bytes. -/
def yamlToJSON (s : String) : String :=
  jsonString s

/-! ## The translation layer (`shim.go`) -/

/-- The dotted-path resolution of `pluginOverride` (shim.go lines 17-37):
`var column string; var table plugin.Identifier` followed by the
segment-count switch, returning the table identifier and column name. -/
def overrideColumnParse (defaultSchema : String) (column : String) : Identifier × String :=
  if column ≠ "" then
    match stringsSplitDot column with
    | [t, c] => ({ schema := defaultSchema, name := t }, c)
    | [s, t, c] => ({ schema := s, name := t }, c)
    | [cat, s, t, c] => ({ catalog := cat, schema := s, name := t }, c)
    | _ => ({}, "")
  else ({}, "")

/-- Builds the `goopts.ParsedGoType` from an override (`pluginGoType`). -/
def pluginGoType (o : ConfigOverride) : ParsedGoType :=
  { importPath := o.goImportPath
    pkg := o.goPackage
    typeName := o.goTypeName
    basicType := o.goBasicType
    structTags := o.goStructTags }

/-- Translates one configuration override (`pluginOverride`). The Go code
panics when `json.Marshal` fails; the panic is modelled as `Except.error`,
the only non-`ok` outcome. -/
def pluginOverride (r : CompilerResult) (o : ConfigOverride) : Except String PluginOverride :=
  let parsed := overrideColumnParse r.catalog.defaultSchema o.column
  match jsonMarshalParsedGoType (pluginGoType o) with
  | Except.error e => Except.error e
  | Except.ok goTypeJSON =>
    Except.ok
      { codeType := goTypeJSON
        dbType := o.dbType
        nullable := o.nullable
        unsigned := o.unsigned
        column := o.column
        columnName := parsed.2
        table := some parsed.1 }

/-- Translates a registry entry's subprocess description (`pluginProcess`):
non-nil exactly when the entry declares one. -/
def pluginProcess (p : ConfigPlugin) : Option CodegenProcess :=
  match p.process with
  | some pr => some { cmd := pr.cmd }
  | none => none

/-- Translates a registry entry's sandboxed-module description
(`pluginWASM`): non-nil exactly when the entry declares one. -/
def pluginWASM (p : ConfigPlugin) : Option CodegenWASM :=
  match p.wasm with
  | some w => some { url := w.url, sha256 := w.sha256 }
  | none => none

/-- The registry scan of `pluginCodegen` (shim.go lines 81-88): walk the
global plugin list; on the first entry whose name equals the requested
plugin name, copy its environment and derive both execution descriptors and
return immediately; otherwise return the base target untouched. -/
def pluginCodegenScan (name : String) (cg : PluginCodegen) : List ConfigPlugin → PluginCodegen
  | [] => cg
  | p :: ps =>
    if p.name = name then
      { cg with env := p.env, process := pluginProcess p, wasm := pluginWASM p }
    else pluginCodegenScan name cg ps

/-- Translates the codegen stanza (`pluginCodegen`): base target with output
directory, plugin name and converted options, then the registry scan. -/
def pluginCodegen (cs : CombinedSettings) (s : ConfigCodegen) : PluginCodegen :=
  pluginCodegenScan s.plugin
    { out := s.out, plugin := s.plugin, options := yamlToJSON s.options }
    cs.global.plugins

/-- Translates the merged settings (`pluginSettings`): overrides one-by-one
in order, remaining fields copied. -/
def pluginSettings (r : CompilerResult) (cs : CombinedSettings) : Except String PluginSettings := do
  let overrides ← cs.overrides.mapM (pluginOverride r)
  Except.ok
    { version := cs.global.version
      engine := cs.pkg.engine
      schema := cs.pkg.schema
      queries := cs.pkg.queries
      overrides := overrides
      rename := cs.rename
      codegen := pluginCodegen cs cs.codegen }

/-- The declared-length translation shared by both column walks:
`l := -1; if c.Length != nil { l = *c.Length }`. -/
def lengthOrSentinel (l : Option Int) : Int :=
  match l with
  | some n => n
  | none => -1

/-- The loop body of the column walk inside `pluginCatalog` (shim.go lines
148-171): one compiled catalog column to one wire column, owning table `t`. -/
def pluginCatColumn (t : CatTable) (c : CatColumn) : PluginColumn :=
  { name := c.name
    type := some { catalog := c.type.catalog, schema := c.type.schema, name := c.type.name }
    comment := c.comment
    notNull := c.isNotNull
    unsigned := c.isUnsigned
    isArray := c.isArray
    arrayDims := int32ofInt c.arrayDims
    length := int32ofInt (lengthOrSentinel c.length)
    table := some { catalog := t.rel.catalog, schema := t.rel.schema, name := t.rel.name } }

/-- The loop body of the table walk inside `pluginCatalog`. -/
def pluginTable (t : CatTable) : PluginTable :=
  { rel := some { catalog := t.rel.catalog, schema := t.rel.schema, name := t.rel.name }
    columns := t.columns.map (pluginCatColumn t)
    comment := t.comment }

/-- The enum half of the type switch inside `pluginCatalog`: order-preserving
filter of the schema's types. -/
def pluginEnums (types : List CatType) : List PluginEnum :=
  types.filterMap (fun t =>
    match t with
    | CatType.enum n c v => some { name := n, comment := c, vals := v }
    | CatType.composite _ _ => none)

/-- The composite-type half of the type switch inside `pluginCatalog`. -/
def pluginCompositeTypes (types : List CatType) : List PluginCompositeType :=
  types.filterMap (fun t =>
    match t with
    | CatType.enum _ _ _ => none
    | CatType.composite n c => some { name := n, comment := c })

/-- The loop body of the schema walk inside `pluginCatalog`. -/
def pluginSchema (s : CatSchema) : PluginSchema :=
  { comment := s.comment
    name := s.name
    tables := s.tables.map pluginTable
    enums := pluginEnums s.types
    compositeTypes := pluginCompositeTypes s.types }

/-- Translates the compiled catalog (`pluginCatalog`): deterministic,
order-preserving walk Catalog → Schema → (Enum, CompositeType, Table →
Column). -/
def pluginCatalog (c : Catalog) : PluginCatalog :=
  { name := c.name
    defaultSchema := c.defaultSchema
    comment := c.comment
    schemas := c.schemas.map pluginSchema }

/-- Translates one compiled query column (`pluginQueryColumn`): resolved
type identifier copied verbatim when present, otherwise an identifier whose
name is the raw datatype text. -/
def pluginQueryColumn (c : CompColumn) : PluginColumn :=
  { name := c.name
    originalName := c.originalName
    comment := c.comment
    notNull := c.notNull
    unsigned := c.unsigned
    isArray := c.isArray
    arrayDims := int32ofInt c.arrayDims
    length := int32ofInt (lengthOrSentinel c.length)
    isNamedParam := c.isNamedParam
    isFuncCall := c.isFuncCall
    isSqlcSlice := c.isSqlcSlice
    type :=
      match c.type with
      | some t => some { catalog := t.catalog, schema := t.schema, name := t.name }
      | none => some { name := c.dataType }
    table := c.table.map (fun t => { catalog := t.catalog, schema := t.schema, name := t.name })
    embedTable := c.embedTable.map (fun t => { catalog := t.catalog, schema := t.schema, name := t.name }) }

/-- Translates one compiled query parameter (`pluginQueryParam`). -/
def pluginQueryParam (p : CompParameter) : PluginParameter :=
  { number := int32ofInt p.number
    column := pluginQueryColumn p.column }

/-- The loop body of `pluginQueries`: one compiled query to one wire query;
the insert-target identifier is populated exactly when the compiled query
carries one. -/
def pluginQuery (q : CompQuery) : PluginQuery :=
  { name := q.metadataName
    cmd := q.metadataCmd
    text := q.sql
    comments := q.metadataComments
    columns := q.columns.map pluginQueryColumn
    params := q.params.map pluginQueryParam
    filename := q.metadataFilename
    insertIntoTable := q.insertIntoTable.map
      (fun t => { catalog := t.catalog, schema := t.schema, name := t.name }) }

/-- Translates the compiled queries in order (`pluginQueries`). -/
def pluginQueries (r : CompilerResult) : List PluginQuery :=
  r.queries.map pluginQuery

/-- Assembles the top-level request (`codeGenRequest`). The Go function
reads the tool version from the external `info` package; the version string
is modelled as an explicit argument. -/
def codeGenRequest (version : String) (r : CompilerResult) (settings : CombinedSettings) :
    Except String CodeGenRequest := do
  let s ← pluginSettings r settings
  Except.ok
    { settings := s
      catalog := pluginCatalog r.catalog
      queries := pluginQueries r
      sqlcVersion := version }

/-! ## Theorems -/

/-- Claim C3: a query column with a resolved type identifier has it copied
verbatim (catalog, schema, name); one without gets an identifier whose name
is the raw datatype text and whose catalog and schema are empty. -/
theorem query_column_type_resolution (c : CompColumn) :
    match c.type with
    | some t => (pluginQueryColumn c).type =
        some { catalog := t.catalog, schema := t.schema, name := t.name }
    | none => (pluginQueryColumn c).type =
        some { catalog := "", schema := "", name := c.dataType } := by
  rcases h : c.type with _ | t <;> simp [pluginQueryColumn, h]

/-- Claim C5: translated queries are the compiled queries in order, and the
insert-target identifier of a translated query is present exactly when the
compiled query is an insert with a statically known target table, in which
case it equals that table's identifier. -/
theorem query_insert_target (r : CompilerResult) (q : CompQuery) :
    pluginQueries r = r.queries.map pluginQuery ∧
    (match q.insertIntoTable with
     | some t => (pluginQuery q).insertIntoTable =
         some { catalog := t.catalog, schema := t.schema, name := t.name }
     | none => (pluginQuery q).insertIntoTable = none) := by
  refine ⟨rfl, ?_⟩
  rcases h : q.insertIntoTable with _ | t <;> simp [pluginQuery, h]

/-- Claim C7: serialization of the override type-mapping descriptor always
succeeds, and the override translation always returns a successful result —
the abort (error) branch is unreachable for every input. -/
theorem override_serialization_never_fails (r : CompilerResult) (o : ConfigOverride) :
    (∃ s, jsonMarshalParsedGoType (pluginGoType o) = Except.ok s) ∧
    (∃ ov, pluginOverride r o = Except.ok ov) := by
  exact ⟨⟨_, rfl⟩, ⟨_, rfl⟩⟩

/-- Claim C8: request assembly is deterministic — the whole pipeline is a
pure function of the compiled result, the combined settings and the tool
version, so two invocations on the same inputs are structurally equal. -/
theorem request_assembly_deterministic (v : String) (r : CompilerResult)
    (cs : CombinedSettings) :
    codeGenRequest v r cs = codeGenRequest v r cs := rfl

/-- Claim C9: every translated column carries a non-nil type identifier:
the catalog column walk, the query-column translation and the parameter
translation always populate it, hence every column reachable in the
translated catalog and in every translated query has a present type. -/
theorem translated_columns_type_present :
    (∀ (t : CatTable) (c : CatColumn), (pluginCatColumn t c).type.isSome) ∧
    (∀ c : CompColumn, (pluginQueryColumn c).type.isSome) ∧
    (∀ p : CompParameter, (pluginQueryParam p).column.type.isSome) ∧
    (∀ (cat : Catalog), ∀ s ∈ (pluginCatalog cat).schemas, ∀ tb ∈ s.tables,
      ∀ col ∈ tb.columns, col.type.isSome) ∧
    (∀ (r : CompilerResult), ∀ q ∈ pluginQueries r,
      (∀ col ∈ q.columns, col.type.isSome) ∧
      (∀ pa ∈ q.params, pa.column.type.isSome)) := by
  have hcat : ∀ (t : CatTable) (c : CatColumn), (pluginCatColumn t c).type.isSome := by
    intro t c; simp [pluginCatColumn]
  have hq : ∀ c : CompColumn, (pluginQueryColumn c).type.isSome := by
    intro c; rcases h : c.type with _ | t <;> simp [pluginQueryColumn, h]
  refine ⟨hcat, hq, fun p => hq p.column, ?_, ?_⟩
  · intro cat s hs tb htb col hcol
    rw [pluginCatalog] at hs
    simp only [List.mem_map] at hs
    obtain ⟨s0, _, rfl⟩ := hs
    rw [pluginSchema] at htb
    simp only [List.mem_map] at htb
    obtain ⟨t0, _, rfl⟩ := htb
    rw [pluginTable] at hcol
    simp only [List.mem_map] at hcol
    obtain ⟨c0, _, rfl⟩ := hcol
    exact hcat t0 c0
  · intro r q hq'
    rw [pluginQueries] at hq'
    simp only [List.mem_map] at hq'
    obtain ⟨q0, _, rfl⟩ := hq'
    constructor
    · intro col hcol
      rw [pluginQuery] at hcol
      simp only [List.mem_map] at hcol
      obtain ⟨c0, _, rfl⟩ := hcol
      exact hq c0
    · intro pa hpa
      rw [pluginQuery] at hpa
      simp only [List.mem_map] at hpa
      obtain ⟨p0, _, rfl⟩ := hpa
      exact hq p0.column

/-- A catalog column used to exercise the catalog walk on concrete input. -/
def wCatColumn : CatColumn :=
  { name := "id", type := { schema := "pg_catalog", name := "int4" },
    isNotNull := true, isUnsigned := false, isArray := false, arrayDims := 0,
    comment := "", length := none }

/-- A catalog table used to exercise the catalog walk on concrete input. -/
def wCatTable : CatTable :=
  { rel := { schema := "public", name := "orders" }, columns := [wCatColumn], comment := "" }

/-- A catalog schema used to exercise the catalog walk on concrete input. -/
def wCatSchema : CatSchema :=
  { name := "public", comment := "", tables := [wCatTable],
    types := [CatType.enum "status" "" ["open", "closed"], CatType.composite "pair" ""] }

/-- A compiled catalog used to exercise the catalog walk on concrete input. -/
def wCatalog : Catalog :=
  { name := "db", defaultSchema := "public", comment := "", schemas := [wCatSchema] }

/-- Witness for claim C9 at a concrete catalog: the single reachable column
of the translated catalog has a present type identifier. -/
theorem translated_columns_type_present_witness :
    (pluginCatColumn wCatTable wCatColumn).type.isSome = true :=
  translated_columns_type_present.2.2.2.1 wCatalog (pluginSchema wCatSchema)
    (by simp [pluginCatalog, wCatalog]) (pluginTable wCatTable)
    (by simp [pluginSchema, wCatSchema]) (pluginCatColumn wCatTable wCatColumn)
    (by simp [pluginTable, wCatTable])

/-- First-match behaviour of the registry scan, phrased through `find?`:
with no matching entry the base target is returned untouched; with a first
matching entry the environment and the two execution descriptors are taken
from that entry and nothing else changes. -/
theorem pluginCodegenScan_find (name : String) (cg : PluginCodegen)
    (l : List ConfigPlugin) :
    (l.find? (fun p => p.name == name) = none → pluginCodegenScan name cg l = cg) ∧
    (∀ p, l.find? (fun p => p.name == name) = some p →
      pluginCodegenScan name cg l =
        { cg with env := p.env, process := pluginProcess p, wasm := pluginWASM p }) := by
  induction l with
  | nil => simp [pluginCodegenScan]
  | cons q qs ih =>
    by_cases h : q.name = name
    · refine ⟨?_, ?_⟩
      · intro hn
        rw [List.find?_cons_of_pos _ (by simp [h])] at hn
        exact absurd hn (by simp)
      · intro p hp
        rw [List.find?_cons_of_pos _ (by simp [h])] at hp
        obtain rfl : q = p := by simpa using hp
        simp [pluginCodegenScan, h]
    · refine ⟨?_, ?_⟩
      · intro hn
        rw [List.find?_cons_of_neg _ (by simp [h])] at hn
        simp only [pluginCodegenScan, if_neg h]
        exact ih.1 hn
      · intro p hp
        rw [List.find?_cons_of_neg _ (by simp [h])] at hp
        simp only [pluginCodegenScan, if_neg h]
        exact ih.2 p hp

/-- Claim C1 (amended): the translated codegen target always carries the
output directory and plugin name; when no registry entry matches the
requested plugin name, neither execution descriptor is populated and the
environment is empty; when the (first) matching entry exists, its
environment is copied and each descriptor is populated exactly when the
entry declares the corresponding execution description — so exactly one is
populated exactly when the entry declares exactly one of the two. -/
theorem codegen_target_resolution_amended (cs : CombinedSettings) (s : ConfigCodegen) :
    (pluginCodegen cs s).out = s.out ∧
    (pluginCodegen cs s).plugin = s.plugin ∧
    (cs.global.plugins.find? (fun p => p.name == s.plugin) = none →
      (pluginCodegen cs s).env = [] ∧ (pluginCodegen cs s).process = none ∧
      (pluginCodegen cs s).wasm = none) ∧
    (∀ p, cs.global.plugins.find? (fun p => p.name == s.plugin) = some p →
      (pluginCodegen cs s).env = p.env ∧
      ((pluginCodegen cs s).process.isSome ↔ p.process.isSome) ∧
      ((pluginCodegen cs s).wasm.isSome ↔ p.wasm.isSome)) := by
  obtain ⟨hnone, hsome⟩ := pluginCodegenScan_find s.plugin
    { out := s.out, plugin := s.plugin, options := yamlToJSON s.options }
    cs.global.plugins
  rcases hfind : cs.global.plugins.find? (fun p => p.name == s.plugin) with _ | p
  · rw [pluginCodegen, hnone hfind]
    refine ⟨rfl, rfl, fun _ => ⟨rfl, rfl, rfl⟩, ?_⟩
    intro p hp
    rw [hfind] at hp
    exact absurd hp (by simp)
  · rw [pluginCodegen, hsome p hfind]
    refine ⟨rfl, rfl, ?_, ?_⟩
    · intro hn
      rw [hfind] at hn
      exact absurd hn (by simp)
    rintro p' hp'
    obtain rfl : p = p' := by rw [hfind] at hp'; simpa using hp'
    refine ⟨rfl, ?_, ?_⟩
    · rcases h : p.process with _ | pr <;> simp [pluginProcess, h]
    · rcases h : p.wasm with _ | w <;> simp [pluginWASM, h]

/-- A registry entry that matches by name but declares neither a subprocess
nor a sandboxed module. -/
def cxPlugin : ConfigPlugin :=
  { name := "gen", env := ["A=1"], process := none, wasm := none }

/-- A codegen stanza requesting the plugin named by `cxPlugin`. -/
def cxCodegen : ConfigCodegen :=
  { out := "db", plugin := "gen", options := "" }

/-- Combined settings whose registry holds exactly `cxPlugin`. -/
def cxSettings : CombinedSettings :=
  { global := { version := "2", plugins := [cxPlugin] },
    pkg := { engine := "postgresql", schema := [], queries := [] },
    rename := [], overrides := [], codegen := cxCodegen }

/-- Counterexample to claim C1 as stated: the requested plugin name equals
the declared name of a registry entry, yet the translated codegen target has
neither the subprocess nor the sandboxed-module descriptor populated — not
exactly one. -/
theorem codegen_descriptor_counterexample :
    cxPlugin.name = cxCodegen.plugin ∧
    cxPlugin ∈ cxSettings.global.plugins ∧
    (pluginCodegen cxSettings cxCodegen).process = none ∧
    (pluginCodegen cxSettings cxCodegen).wasm = none := by
  refine ⟨rfl, by simp [cxSettings], ?_, ?_⟩ <;>
    simp [pluginCodegen, cxSettings, cxCodegen, pluginCodegenScan, cxPlugin,
      pluginProcess, pluginWASM]

/-- A registry entry named `gen` declaring a subprocess command only. -/
def w1Plugin : ConfigPlugin :=
  { name := "gen", env := ["A=1"], process := some { cmd := "run-gen" }, wasm := none }

/-- Combined settings whose registry holds exactly `w1Plugin`. -/
def w1Settings : CombinedSettings :=
  { global := { version := "2", plugins := [w1Plugin] },
    pkg := { engine := "postgresql", schema := [], queries := [] },
    rename := [], overrides := [], codegen := cxCodegen }

/-- Witness for claim C1 (amended) at a concrete matching registry entry. -/
theorem codegen_target_resolution_amended_witness :
    (pluginCodegen w1Settings cxCodegen).env = ["A=1"] :=
  ((codegen_target_resolution_amended w1Settings cxCodegen).2.2.2 w1Plugin
    (by simp [w1Settings, w1Plugin, cxCodegen])).1

/-- Splicing an unmatched run of registry entries in front of the scan does
not change its result. -/
theorem pluginCodegenScan_append (name : String) (cg : PluginCodegen)
    (pre rest : List ConfigPlugin) (h : ∀ q ∈ pre, q.name ≠ name) :
    pluginCodegenScan name cg (pre ++ rest) = pluginCodegenScan name cg rest := by
  induction pre with
  | nil => rfl
  | cons q qs ih =>
    have hq : q.name ≠ name := h q (by simp)
    simp only [List.cons_append, pluginCodegenScan, if_neg hq]
    exact ih (fun x hx => h x (by simp [hx]))

/-- Claim C10: when the registry is an unmatched head followed by a matching
entry `p` and an arbitrary tail, the translated codegen target takes its
environment and both execution descriptors from `p`; entries after the first
match never influence the output. -/
theorem registry_first_match_wins (cs : CombinedSettings) (s : ConfigCodegen)
    (pre post : List ConfigPlugin) (p : ConfigPlugin)
    (hsplit : cs.global.plugins = pre ++ p :: post)
    (hpre : ∀ q ∈ pre, q.name ≠ s.plugin)
    (hp : p.name = s.plugin) :
    (pluginCodegen cs s).env = p.env ∧
    (pluginCodegen cs s).process = pluginProcess p ∧
    (pluginCodegen cs s).wasm = pluginWASM p := by
  rw [pluginCodegen, hsplit, pluginCodegenScan_append _ _ _ _ hpre]
  simp [pluginCodegenScan, hp]

/-- A second registry entry with the same declared name as `w1Plugin` but a
different environment and a sandboxed module instead of a subprocess. -/
def w2PluginDup : ConfigPlugin :=
  { name := "gen", env := ["B=2"],
    process := none, wasm := some { url := "https://x/p.wasm", sha256 := "aa" } }

/-- Combined settings whose registry holds two entries both named `gen`. -/
def w2Settings : CombinedSettings :=
  { global := { version := "2", plugins := [w1Plugin, w2PluginDup] },
    pkg := { engine := "postgresql", schema := [], queries := [] },
    rename := [], overrides := [], codegen := cxCodegen }

/-- Witness for claim C10 at a registry with duplicate names: the first
entry's environment wins and the duplicate's descriptors are ignored. -/
theorem registry_first_match_wins_witness :
    (pluginCodegen w2Settings cxCodegen).env = ["A=1"] :=
  (registry_first_match_wins w2Settings cxCodegen [] [w2PluginDup] w1Plugin
    rfl (by simp) rfl).1

/-- Claim C2: the dotted override path selects the interpretation by segment
count — 2 segments give table.column with the catalog's default schema,
3 give schema.table.column, 4 give catalog.schema.table.column, and any
other count leaves the column name empty and the table identifier with all
fields empty. -/
theorem override_path_resolution (r : CompilerResult) (o : ConfigOverride)
    (ov : PluginOverride) (h : pluginOverride r o = Except.ok ov) :
    match stringsSplitDot o.column with
    | [t, c] => ov.table = some { catalog := "", schema := r.catalog.defaultSchema, name := t } ∧
        ov.columnName = c
    | [s, t, c] => ov.table = some { catalog := "", schema := s, name := t } ∧
        ov.columnName = c
    | [ca, s, t, c] => ov.table = some { catalog := ca, schema := s, name := t } ∧
        ov.columnName = c
    | _ => ov.table = some { catalog := "", schema := "", name := "" } ∧
        ov.columnName = "" := by
  simp only [pluginOverride, jsonMarshalParsedGoType, Except.ok.injEq] at h
  subst h
  by_cases hc : o.column = ""
  · have he : stringsSplitDot o.column = [""] := by rw [hc]; rfl
    rw [he]
    simp [overrideColumnParse, hc]
  · rcases e : stringsSplitDot o.column with _ | ⟨a, _ | ⟨b, _ | ⟨c2, _ | ⟨d, _ | ⟨e2, tail⟩⟩⟩⟩⟩ <;>
      simp [e, overrideColumnParse, hc]

/-- An override whose column path has three segments. -/
def w3Override : ConfigOverride :=
  { column := "public.orders.id", dbType := "text", nullable := false, unsigned := false,
    goImportPath := "", goPackage := "", goTypeName := "MyType", goBasicType := false,
    goStructTags := [] }

/-- A compiled result supplying the default schema for the override walk. -/
def w3Result : CompilerResult :=
  { catalog := { name := "", defaultSchema := "public", comment := "", schemas := [] },
    queries := [] }

/-- The override produced for `w3Override`. -/
def w3Out : PluginOverride :=
  (pluginOverride w3Result w3Override).toOption.getD {}

/-- Witness for claim C2 at the three-segment path `public.orders.id`. -/
theorem override_path_resolution_witness :
    w3Out.table = some { catalog := "", schema := "public", name := "orders" } ∧
    w3Out.columnName = "id" := by
  have h := override_path_resolution w3Result w3Override w3Out rfl
  have e : stringsSplitDot w3Override.column = ["public", "orders", "id"] := by decide
  rw [e] at h
  exact h

/-- A compiled query column declaring the length 4294967295. -/
def c4BadColumn : CompColumn :=
  { name := "n", originalName := "", dataType := "bit", comment := "",
    notNull := false, unsigned := false, isArray := false, arrayDims := 0,
    length := some 4294967295, isNamedParam := false, isFuncCall := false,
    isSqlcSlice := false, table := none, type := none, embedTable := none }

/-- Counterexample to claim C4 as stated: a declared length of 4294967295
(which is nonnegative) does not translate to itself — the `int32` conversion
wraps it to the sentinel −1, so the sentinel collides with this real
declared length. -/
theorem length_sentinel_counterexample :
    c4BadColumn.length = some 4294967295 ∧
    (pluginQueryColumn c4BadColumn).length = -1 ∧
    ((pluginQueryColumn c4BadColumn).length == (4294967295 : Int)) = false := by
  decide

/-- Claim C4 (amended): in both the catalog column walk and the query-column
translation, a column with no declared length translates to the sentinel −1,
and a column with declared length n with 0 ≤ n < 2^31 translates to exactly
n, which is distinct from the sentinel; declared lengths of 2^31 and above
wrap in the `int32` conversion and may collide with the sentinel. -/
theorem length_translation_amended (t : CatTable) (c : CatColumn) (c' : CompColumn) :
    (c.length = none → (pluginCatColumn t c).length = -1) ∧
    (∀ n : Int, c.length = some n → 0 ≤ n → n < 2 ^ 31 →
      (pluginCatColumn t c).length = n ∧ n ≠ -1) ∧
    (c'.length = none → (pluginQueryColumn c').length = -1) ∧
    (∀ n : Int, c'.length = some n → 0 ≤ n → n < 2 ^ 31 →
      (pluginQueryColumn c').length = n ∧ n ≠ -1) := by
  refine ⟨?_, ?_, ?_, ?_⟩
  · intro h
    simp [pluginCatColumn, lengthOrSentinel, h, int32ofInt]
  · intro n h h0 h31
    simp only [pluginCatColumn, lengthOrSentinel, h, int32ofInt]
    omega
  · intro h
    simp [pluginQueryColumn, lengthOrSentinel, h, int32ofInt]
  · intro n h h0 h31
    simp only [pluginQueryColumn, lengthOrSentinel, h, int32ofInt]
    omega

/-- A catalog column with no declared length. -/
def w4ColNone : CatColumn :=
  { name := "a", type := { name := "text" }, isNotNull := false, isUnsigned := false,
    isArray := false, arrayDims := 0, comment := "", length := none }

/-- A compiled query column with declared length 7. -/
def w4Col7 : CompColumn :=
  { name := "b", originalName := "", dataType := "varchar", comment := "",
    notNull := false, unsigned := false, isArray := false, arrayDims := 0,
    length := some 7, isNamedParam := false, isFuncCall := false,
    isSqlcSlice := false, table := none, type := none, embedTable := none }

/-- Witness for claim C4 (amended): an absent length maps to −1 and the
declared length 7 maps to 7. -/
theorem length_translation_amended_witness :
    (pluginCatColumn wCatTable w4ColNone).length = -1 ∧
    (pluginQueryColumn w4Col7).length = 7 :=
  ⟨(length_translation_amended wCatTable w4ColNone w4Col7).1 rfl,
   ((length_translation_amended wCatTable w4ColNone w4Col7).2.2.2 7 rfl
     (by decide) (by decide)).1⟩

/-- Claim C6: the catalog walk preserves counts and relative order exactly —
the i-th translated schema is the translation of the i-th compiled schema,
the j-th translated table of a schema is the translation of its j-th
compiled table, and the k-th translated column of a table is the translation
of its k-th compiled column; lengths agree at every level. -/
theorem catalog_walk_order_preserved (c : Catalog) :
    (pluginCatalog c).schemas.length = c.schemas.length ∧
    (∀ (i : ℕ) (s : CatSchema), c.schemas[i]? = some s →
      (pluginCatalog c).schemas[i]? = some (pluginSchema s) ∧
      (pluginSchema s).tables.length = s.tables.length ∧
      (∀ (j : ℕ) (t : CatTable), s.tables[j]? = some t →
        (pluginSchema s).tables[j]? = some (pluginTable t) ∧
        (pluginTable t).columns.length = t.columns.length ∧
        (∀ (k : ℕ) (col : CatColumn), t.columns[k]? = some col →
          (pluginTable t).columns[k]? = some (pluginCatColumn t col)))) := by
  refine ⟨by simp [pluginCatalog], ?_⟩
  intro i s hs
  refine ⟨by simp [pluginCatalog, List.getElem?_map, hs], by simp [pluginSchema], ?_⟩
  intro j t ht
  refine ⟨by simp [pluginSchema, List.getElem?_map, ht], by simp [pluginTable], ?_⟩
  intro k col hcol
  simp [pluginTable, List.getElem?_map, hcol]

/-- Witness for claim C6 at the concrete one-schema catalog: positional
correspondence holds down to the single column. -/
theorem catalog_walk_order_preserved_witness :
    (pluginTable wCatTable).columns[0]? = some (pluginCatColumn wCatTable wCatColumn) :=
  (((catalog_walk_order_preserved wCatalog).2 0 wCatSchema rfl).2.2 0 wCatTable
    rfl).2.2 0 wCatColumn rfl

end Sqlc
